import Mathlib

/-!
Shallow embedding of the playback/visualisation core of the
`audio_visualiser` repository (files `tkinter_sound_visualiser.py` and
`pyqt_sound_visualiser.py`).  Samples are idealised as rational numbers
(the float32 arithmetic of numpy) and the trigonometric generators as
real-valued functions.  Each definition is translated from the Python
source; theorems below settle the specification claims.
-/

namespace AudioVisualiser

/-- Number of samples in one sound package (`PACKAGE_LENGTH = 1024` in the
Tk variant, 2048 in the Qt variant); the frame size `F` of the spec. -/
def PACKAGE_LENGTH : ℕ := 1024

/-- Length of `np.arange(x)` for a real argument `x`: the number of
naturals strictly below `x`, i.e. `⌈x⌉` clamped at zero. -/
def npArangeLen (x : ℚ) : ℕ := Nat.ceil x

/-- Model of `np.linspace(0, stop, num)`: `num` evenly spaced points from `0` to
`stop` inclusive (for `num = 1` numpy yields `[0]`, for `num = 0` the
empty array; division by `num - 1 = 0` is the zero convention of `ℚ`). -/
def np_linspace (stop : ℚ) (num : ℕ) : List ℚ :=
(List.range num).map (fun i : ℕ => stop * (i : ℚ) / ((num : ℚ) - 1))

/-- The pyaudio flag returned by a stream callback. -/
inductive StreamSignal
| paContinue
| paComplete
deriving DecidableEq

/-- Result of one invocation of `SoundVisualiser.callback` (Tk variant,
lines 136-139): the published chunk `self.out`, the remaining stream
`self.sound_stream`, the samples returned to the device and the flag. -/
structure CallbackResult where
  chunk : List ℚ
  rest : List ℚ
  returned : List ℚ
  flag : StreamSignal
deriving DecidableEq

/-- Embedding of `SoundVisualiser.callback` of the Tk variant:
`self.out = self.sound_stream[:frame_count]`,
`self.sound_stream = self.sound_stream[frame_count:]`,
`return self.out*self.volume, pyaudio.paContinue`. -/
def callbackTk (stream : List ℚ) (volume : ℚ) (frameCount : ℕ) : CallbackResult :=
{ chunk := stream.take frameCount
  rest := stream.drop frameCount
  returned := (stream.take frameCount).map (fun s => s * volume)
  flag := StreamSignal.paContinue }

/-- A playback session: fold `callbackTk` over a list of requested frame
counts, collecting every published chunk and the remaining stream
(`TkViewControl` starts a session with `sound_stream = full_sound_stream`). -/
def runCallbacks (v : ℚ) : List ℚ → List ℕ → List (List ℚ) × List ℚ
| stream, [] => ([], stream)
| stream, fc :: fcs =>
    let r := callbackTk stream v fc
    let p := runCallbacks v r.rest fcs
    (r.chunk :: p.1, p.2)

/-- The boolean transport flags of `TkViewControl` together with the state
of the pyaudio stream. -/
structure TransportFlags where
  running : Bool
  stopped : Bool
  streamActive : Bool
  streamClosed : Bool
deriving DecidableEq

/-- Embedding of `TkViewControl.stop` (lines 367-369): sets `self.stopped = True`
(and stops the visualisation timer, not modelled here). -/
def stopCommand (st : TransportFlags) : TransportFlags :=
{ st with stopped := true }

/-- The epilogue of `TkViewControl.play_sound` (lines 351-357), executed
once the stream is no longer active or `stopped` was observed: stop and
close the stream, `self.running = False`, `self.stopped = True`. -/
def playSoundEpilogue (_st : TransportFlags) : TransportFlags :=
{ running := false, stopped := true, streamActive := false, streamClosed := true }

/-- Embedding of `SoundVisualiser.update_frame` (Tk variant, lines 141-153) as a pure
function of the latest published chunk: returns the `(xdata, ydata)` pair
handed to `line.set_data`, or `none` when the redraw is skipped.  The
full-frame x-axis is the `self.xdata` precomputed in
`init_sound_visualisation` (line 161). -/
def update_frame (F : ℕ) (fs : ℚ) (chunk : List ℚ) : Option (List ℚ × List ℚ) :=
if chunk.length = F then
  some (np_linspace (1000 * F / fs) F, chunk)
else if 0 < chunk.length then
  some (np_linspace (1000 * chunk.length / fs) chunk.length, chunk)
else
  none

/-- Default tone frequency in Hz (`DEFAULT_FREQUENCY = 223`). -/
def DEFAULT_FREQUENCY : ℤ := 223

/-- Default sound duration in seconds (`DEFAULT_DURATION = 5.0`). -/
def DEFAULT_DURATION : ℚ := 5

/-- The sound types of the `SoundType` enumeration. -/
inductive SoundType
| NOTE
| DESIGN
| FILE
deriving DecidableEq

/-- The NOTE branch of `generate_sound_stream` (Tk lines 89-92):
`np.sin(2*np.pi*frequency/fs*np.arange(fs*duration))`, with the numpy sine
idealised as the real sine. -/
noncomputable def noteStream (frequency fs duration : ℚ) : List ℝ :=
(List.range (npArangeLen (fs * duration))).map
  (fun n : ℕ => Real.sin (2 * Real.pi * (frequency : ℝ) / (fs : ℝ) * (n : ℝ)))

/-- The DESIGN branch of `generate_sound_stream` (Tk lines 94-99): the
fixed superposition of sines at 325, 330 and 340 Hz with weights 0.5,
0.1, 0.5 (plus the literal `+ 0` of the source). -/
noncomputable def designStream (fs duration : ℚ) : List ℝ :=
(List.range (npArangeLen (fs * duration))).map
  (fun n : ℕ =>
    0.5 * Real.sin (2 * Real.pi * 325 / (fs : ℝ) * (n : ℝ)) +
    0.1 * Real.sin (2 * Real.pi * 330 / (fs : ℝ) * (n : ℝ)) +
    0.5 * Real.sin (2 * Real.pi * 340 / (fs : ℝ) * (n : ℝ)) + 0)

/-- Dispatch of `SoundVisualiser.generate_sound_stream` over the selected
sound type for the generated streams; the FILE branch with
`wave_data=None` returns early without producing a stream (modelled as
`none`; the decoding path with wave data present is `load_file` below). -/
noncomputable def generate_sound_stream (selectedType : SoundType)
    (frequency fs duration : ℚ) : Option (List ℝ) :=
match selectedType with
| SoundType.NOTE => some (noteStream frequency fs duration)
| SoundType.DESIGN => some (designStream fs duration)
| SoundType.FILE => none

/-- The design tone exactly as the specification words it: the fixed
superposition `0.5*sin(2π*325*t) + 0.1*sin(2π*330*t) + 0.5*sin(2π*340*t)`
sampled at `t = n / sample_rate`, with no renormalization applied.
Stated from the words of the spec for comparison with `designStream`. -/
noncomputable def designSpecSuperposition (fs duration : ℚ) : List ℝ :=
(List.range (npArangeLen (fs * duration))).map
  (fun n : ℕ =>
    0.5 * Real.sin (2 * Real.pi * 325 * ((n : ℝ) / (fs : ℝ))) +
    0.1 * Real.sin (2 * Real.pi * 330 * ((n : ℝ) / (fs : ℝ))) +
    0.5 * Real.sin (2 * Real.pi * 340 * ((n : ℝ) / (fs : ℝ))))

/-- Model of `np.max` of a buffer (numpy raises on an empty array; the `[]` case
is junk and never used under the nonempty hypotheses below). -/
def npMax : List ℚ → ℚ
| [] => 0
| x :: xs => xs.foldl max x

/-- Model of `np.min` of a buffer. -/
def npMin : List ℚ → ℚ
| [] => 0
| x :: xs => xs.foldl min x

/-- The factor `scale_factor = max(abs(np.min(sound_stream)), abs(np.max(sound_stream)))`
(Tk lines 121-123). -/
def scale_factor (l : List ℚ) : ℚ := max |npMin l| |npMax l|

/-- Peak normalization `full_sound_stream = sound_stream / scale_factor` (Tk line 124). -/
def normalize (l : List ℚ) : List ℚ := l.map (fun x => x / scale_factor l)

/-- Peak absolute value of a buffer. -/
def peak (l : List ℚ) : ℚ := npMax (l.map (fun x => |x|))

/-- The data the external wave decoder hands to the FILE branch of
`generate_sound_stream`: frame count, channel count, sample width, frame
rate and the decoded integer samples. -/
structure WaveData where
  frames : ℕ
  channels : ℕ
  sampleWidth : ℕ
  framerate : ℕ
  samples : List ℤ
deriving DecidableEq

/-- The FILE branch of `generate_sound_stream` (Tk lines 101-124): decode
all frames, convert to float, peak-normalize by the scale factor, and
return `(fs, duration)` with `duration = frames / fs * channels`,
together with the normalized buffer. -/
def load_file (wd : WaveData) : ℚ × ℚ × List ℚ :=
((wd.framerate : ℚ),
 (wd.frames : ℚ) / (wd.framerate : ℚ) * (wd.channels : ℚ),
 normalize (wd.samples.map (fun z : ℤ => (z : ℚ))))

/-- Outcome of `TkViewControl.file_options` once a file name was chosen:
either the `(fs, duration)` pair produced via `generate_sound_stream`
together with the normalized buffer, or a Python exception escaping the
method. -/
inductive TkFileOutcome
| ok (fs : ℚ) (duration : ℚ) (buffer : List ℚ)
| uncaughtUnboundLocalError
deriving DecidableEq

/-- Embedding of `TkViewControl.file_options` (Tk lines 453-483) with the `wave.open`
step abstracted to its outcome: on success the local `wave_data` is bound
and `generate_sound_stream` runs; when `wave.open` raises, the handler
only records an error message, control falls through to the unguarded
call `self.sv.generate_sound_stream(..., wave_data=wave_data)`, and the
reference to the unbound local `wave_data` raises `UnboundLocalError`. -/
def file_options (openResult : Option WaveData) : TkFileOutcome :=
match openResult with
| some wd =>
    TkFileOutcome.ok (load_file wd).1 (load_file wd).2.1 (load_file wd).2.2
| none => TkFileOutcome.uncaughtUnboundLocalError

/-- Frequency substitution in `PyqtViewControl.set_frequency_duration`
(Qt lines 430-438): an entered frequency outside `[10, 10000]` (or an
unparsable one) is replaced by the default 223 before generating. -/
def substFreqPyqt (f : ℤ) : ℤ :=
if f < 10 ∨ 10000 < f then DEFAULT_FREQUENCY else f

/-- Duration substitution in `PyqtViewControl.set_frequency_duration`
(Qt lines 440-446): a duration below 1.0 is replaced by the default 5.0. -/
def substDurPyqt (d : ℚ) : ℚ :=
if d < 1 then DEFAULT_DURATION else d

/-- The progress-clock fields of `TkViewControl`: `start_time`,
`pause_time` (accumulated pause duration), `pause_start_time`, and the
`running` flag. -/
structure ClockState where
  startTime : ℚ
  pauseTime : ℚ
  pauseStartTime : ℚ
  running : Bool
deriving DecidableEq

/-- The pause branch of `control_start_pause` (Tk lines 320-324): while
running, record `pause_start_time = time.time()` and toggle `running`. -/
def pauseAt (t : ℚ) (st : ClockState) : ClockState :=
if st.running then { st with pauseStartTime := t, running := false } else st

/-- The resume branch of `control_start_pause` (Tk lines 326-330): while
paused, `pause_time += time.time() - pause_start_time` and toggle
`running`. -/
def resumeAt (t : ℚ) (st : ClockState) : ClockState :=
if st.running then st
else { st with pauseTime := st.pauseTime + (t - st.pauseStartTime), running := true }

/-- Embedding of `update_progress_bar` (Tk line 360):
`elapsed_time = time.time() - self.start_time - self.pause_time`. -/
def elapsedAt (t : ℚ) (st : ClockState) : ℚ :=
t - st.startTime - st.pauseTime

/-- Session start (Tk lines 304-307): the start time is recorded and
`pause_time = 0.0`. -/
def initClock (t0 : ℚ) : ClockState :=
{ startTime := t0, pauseTime := 0, pauseStartTime := 0, running := true }

/-- Apply a list of completed pause/resume cycles, each pausing at the
first component and resuming at the second. -/
def applyCycles : List (ℚ × ℚ) → ClockState → ClockState
| [], st => st
| c :: cs, st => applyCycles cs (resumeAt c.2 (pauseAt c.1 st))

end AudioVisualiser

namespace AudioVisualiser

/-! ### Theorems -/

theorem np_linspace_length (stop : ℚ) (num : ℕ) :
    (np_linspace stop num).length = num := by
  rw [np_linspace, List.length_map, List.length_range]

/-- C1 counterexample: the published Chunk is NOT the volume-scaled
samples returned to the device — with stream `[1]` and volume `1/2` the
callback publishes `[1]` but returns `[1/2]`. -/
theorem c1_counterexample :
    (callbackTk [1] (1/2) 1024).chunk ≠ (callbackTk [1] (1/2) 1024).returned := by
  norm_num [callbackTk]

/-- C1 (amended): each callback invocation reads `min(F, remaining)`
samples from the front of the buffer, consumes exactly the samples read,
publishes the unscaled samples as the new Chunk, and returns the chunk
multiplied by the current Volume. -/
theorem c1_callback_chunk_cursor_volume (stream : List ℚ) (v : ℚ) (fc : ℕ) :
    (callbackTk stream v fc).chunk.length = min fc stream.length ∧
    (callbackTk stream v fc).chunk ++ (callbackTk stream v fc).rest = stream ∧
    (callbackTk stream v fc).rest.length
      = stream.length - (callbackTk stream v fc).chunk.length ∧
    (callbackTk stream v fc).returned
      = (callbackTk stream v fc).chunk.map (fun s => s * v) := by
  refine ⟨List.length_take fc stream, List.take_append_drop fc stream, ?_, rfl⟩
  simp [callbackTk, List.length_take, List.length_drop]
  omega

/-- C2 counterexample: on a final short read (2 samples remain, 1024
requested) the callback still signals `paContinue`, not stream-complete. -/
theorem c2_counterexample :
    (callbackTk [1, 2] 1 1024).flag = StreamSignal.paContinue ∧
    StreamSignal.paContinue ≠ StreamSignal.paComplete := by
  exact ⟨rfl, by decide⟩

/-- C2 (amended): the callback always returns the continue flag; when the
audio library deactivates the stream after the short final chunk the
`play_sound` loop exits and runs an epilogue whose resulting transport
state (stopped, not running, stream closed) is identical to the state
reached after an external `stop()` followed by the same epilogue. -/
theorem c2_end_of_stream_stops (stream : List ℚ) (v : ℚ) (fc : ℕ)
    (st : TransportFlags) :
    (callbackTk stream v fc).flag = StreamSignal.paContinue ∧
    playSoundEpilogue st = playSoundEpilogue (stopCommand st) ∧
    (playSoundEpilogue st).stopped = true ∧
    (playSoundEpilogue st).running = false ∧
    (playSoundEpilogue st).streamClosed = true := by
  exact ⟨rfl, rfl, rfl, rfl, rfl⟩

/-- C3: the visualisation sampler, as a pure function of the latest
published chunk: a full chunk yields `F` points on the axis
`linspace(0, 1000*F/fs, F)`; a non-empty short chunk yields `len` points
on the rescaled axis `linspace(0, 1000*len/fs, len)`; an empty chunk
yields nothing and the redraw is skipped. -/
theorem c3_update_frame_cases (F : ℕ) (fs : ℚ) (chunk : List ℚ) (hF : 0 < F) :
    (chunk.length = F →
      update_frame F fs chunk = some (np_linspace (1000 * F / fs) F, chunk) ∧
      (np_linspace (1000 * F / fs) F).length = F) ∧
    (chunk.length ≠ F → 0 < chunk.length →
      update_frame F fs chunk
        = some (np_linspace (1000 * chunk.length / fs) chunk.length, chunk) ∧
      (np_linspace (1000 * chunk.length / fs) chunk.length).length
        = chunk.length) ∧
    (chunk.length = 0 → update_frame F fs chunk = none) := by
  refine ⟨fun h => ⟨?_, np_linspace_length _ _⟩,
          fun h h' => ⟨?_, np_linspace_length _ _⟩,
          fun h => ?_⟩
  · simp [update_frame, h]
  · simp [update_frame, h, h']
  · simp [update_frame, h]
    omega

/-- C3 witness: evaluating the sampler on an empty chunk, a short chunk
and a full-size chunk at frame size 2 and sample rate 2048. -/
theorem c3_update_frame_cases_witness :
    update_frame 2 2048 [] = none ∧
    update_frame 2 2048 [5] = some (np_linspace (1000 * 1 / 2048) 1, [5]) ∧
    update_frame 2 2048 [5, 7] = some (np_linspace (1000 * 2 / 2048) 2, [5, 7]) := by
  refine ⟨(c3_update_frame_cases 2 2048 [] (by decide)).2.2 rfl, ?_, ?_⟩
  · exact ((c3_update_frame_cases 2 2048 [5] (by decide)).2.1 (by decide) (by decide)).1
  · exact ((c3_update_frame_cases 2 2048 [5, 7] (by decide)).1 rfl).1

theorem le_foldl_max (l : List ℚ) (b : ℚ) : b ≤ l.foldl max b := by
  induction l generalizing b with
  | nil => exact le_refl b
  | cons x xs ih => exact le_trans (le_max_left b x) (ih (max b x))

theorem mem_le_foldl_max (l : List ℚ) (b : ℚ) : ∀ a ∈ l, a ≤ l.foldl max b := by
  induction l generalizing b with
  | nil => intro a ha; cases ha
  | cons x xs ih =>
      intro a ha
      rcases List.mem_cons.mp ha with h | h
      · subst h; exact le_trans (le_max_right b a) (le_foldl_max xs (max b a))
      · exact ih (max b x) a h

theorem foldl_max_choice (l : List ℚ) (b : ℚ) :
    l.foldl max b ∈ l ∨ l.foldl max b = b := by
  induction l generalizing b with
  | nil => right; rfl
  | cons x xs ih =>
      rcases ih (max b x) with h | h
      · left; exact List.mem_cons_of_mem x h
      · rcases max_choice b x with h2 | h2
        · right; rw [List.foldl_cons, h, h2]
        · left; rw [List.foldl_cons, h, h2]; exact List.mem_cons_self x xs

theorem foldl_min_le (l : List ℚ) (b : ℚ) : l.foldl min b ≤ b := by
  induction l generalizing b with
  | nil => exact le_refl b
  | cons x xs ih => exact le_trans (ih (min b x)) (min_le_left b x)

theorem foldl_min_le_mem (l : List ℚ) (b : ℚ) : ∀ a ∈ l, l.foldl min b ≤ a := by
  induction l generalizing b with
  | nil => intro a ha; cases ha
  | cons x xs ih =>
      intro a ha
      rcases List.mem_cons.mp ha with h | h
      · subst h; exact le_trans (foldl_min_le xs (min b a)) (min_le_right b a)
      · exact ih (min b x) a h

theorem foldl_min_choice (l : List ℚ) (b : ℚ) :
    l.foldl min b ∈ l ∨ l.foldl min b = b := by
  induction l generalizing b with
  | nil => right; rfl
  | cons x xs ih =>
      rcases ih (min b x) with h | h
      · left; exact List.mem_cons_of_mem x h
      · rcases min_choice b x with h2 | h2
        · right; rw [List.foldl_cons, h, h2]
        · left; rw [List.foldl_cons, h, h2]; exact List.mem_cons_self x xs

theorem le_npMax {l : List ℚ} {a : ℚ} (h : a ∈ l) : a ≤ npMax l := by
  cases l with
  | nil => cases h
  | cons x xs =>
      rcases List.mem_cons.mp h with h1 | h1
      · subst h1; exact le_foldl_max xs a
      · exact mem_le_foldl_max xs x a h1

theorem npMax_mem {l : List ℚ} (h : l ≠ []) : npMax l ∈ l := by
  cases l with
  | nil => exact absurd rfl h
  | cons x xs =>
      rcases foldl_max_choice xs x with h1 | h1
      · exact List.mem_cons_of_mem x h1
      · simp only [npMax, h1]; exact List.mem_cons_self x xs

theorem npMin_le {l : List ℚ} {a : ℚ} (h : a ∈ l) : npMin l ≤ a := by
  cases l with
  | nil => cases h
  | cons x xs =>
      rcases List.mem_cons.mp h with h1 | h1
      · subst h1; exact foldl_min_le xs a
      · exact foldl_min_le_mem xs x a h1

theorem npMin_mem {l : List ℚ} (h : l ≠ []) : npMin l ∈ l := by
  cases l with
  | nil => exact absurd rfl h
  | cons x xs =>
      rcases foldl_min_choice xs x with h1 | h1
      · exact List.mem_cons_of_mem x h1
      · simp only [npMin, h1]; exact List.mem_cons_self x xs

theorem abs_le_scale_factor {l : List ℚ} {a : ℚ} (h : a ∈ l) :
    |a| ≤ scale_factor l := by
  rw [abs_le]
  constructor
  · have h1 : npMin l ≤ a := npMin_le h
    have h2 : |npMin l| ≤ scale_factor l := le_max_left _ _
    have h3 : -|npMin l| ≤ npMin l := neg_abs_le (npMin l)
    linarith
  · have h1 : a ≤ npMax l := le_npMax h
    have h2 : |npMax l| ≤ scale_factor l := le_max_right _ _
    have h3 : npMax l ≤ |npMax l| := le_abs_self (npMax l)
    linarith

theorem scale_factor_is_abs_mem {l : List ℚ} (h : l ≠ []) :
    ∃ a ∈ l, |a| = scale_factor l := by
  rcases max_choice |npMin l| |npMax l| with h1 | h1
  · exact ⟨npMin l, npMin_mem h, h1.symm⟩
  · exact ⟨npMax l, npMax_mem h, h1.symm⟩

theorem scale_factor_pos {l : List ℚ} (hnz : ∃ a ∈ l, a ≠ 0) :
    0 < scale_factor l := by
  obtain ⟨a, ha, hne⟩ := hnz
  exact lt_of_lt_of_le (abs_pos.mpr hne) (abs_le_scale_factor ha)

theorem peak_normalize {l : List ℚ} (h : l ≠ []) (hnz : ∃ a ∈ l, a ≠ 0) :
    peak (normalize l) = 1 := by
  have hs : 0 < scale_factor l := scale_factor_pos hnz
  have hmap : (normalize l).map (fun x => |x|)
      = l.map (fun x => |x| / scale_factor l) := by
    simp only [normalize, List.map_map]
    refine List.map_congr_left ?_
    intro a _
    simp only [Function.comp_apply]
    rw [abs_div, abs_of_pos hs]
  rw [peak, hmap]
  apply le_antisymm
  · have hne : l.map (fun x => |x| / scale_factor l) ≠ [] := by
      simpa using h
    obtain ⟨a, ha, hb⟩ := List.mem_map.mp (npMax_mem hne)
    rw [← hb]
    exact div_le_one_of_le₀ (abs_le_scale_factor ha) (le_of_lt hs)
  · obtain ⟨a, ha, hab⟩ := scale_factor_is_abs_mem h
    have h1 : |a| / scale_factor l = 1 := by
      rw [hab]; exact div_self (ne_of_gt hs)
    have hmem : (1 : ℚ) ∈ l.map (fun x => |x| / scale_factor l) := by
      rw [← h1]; exact List.mem_map_of_mem _ ha
    exact le_npMax hmem

/-- C4 counterexample: the valid mono 16-bit WAV consisting of a single
zero sample is decoded to the all-zero buffer; its scale factor is 0, the
division does not produce a peak-1 buffer, and the resulting peak is not
1.0 (the float code produces NaN there; the rational model yields 0). -/
theorem c4_counterexample :
    peak (load_file ⟨1, 1, 2, 8000, [0]⟩).2.2 ≠ 1 := by
  simp [load_file, normalize, peak, scale_factor, npMax, npMin]

/-- C4 (amended): on a valid mono 16-bit PCM WAV at rate R with N frames
whose samples are not all zero, `load_file` returns `sample_rate = R`,
`duration = N / R`, and a peak-normalized buffer: every decoded sample is
divided by `max(|min|, |max|)` and the peak absolute value is exactly 1. -/
theorem c4_load_file_normalized (wd : WaveData)
    (hmono : wd.channels = 1)
    (hne : wd.samples ≠ [])
    (hnz : ∃ s ∈ wd.samples, s ≠ 0) :
    (load_file wd).1 = (wd.framerate : ℚ) ∧
    (load_file wd).2.1 = (wd.frames : ℚ) / (wd.framerate : ℚ) ∧
    (load_file wd).2.2
      = (wd.samples.map (fun z : ℤ => (z : ℚ))).map
          (fun x => x / scale_factor (wd.samples.map (fun z : ℤ => (z : ℚ)))) ∧
    peak (load_file wd).2.2 = 1 := by
  refine ⟨rfl, ?_, rfl, ?_⟩
  · simp [load_file, hmono]
  · apply peak_normalize
    · simpa using hne
    · obtain ⟨s, hs, hsne⟩ := hnz
      refine ⟨(s : ℚ), List.mem_map_of_mem _ hs, ?_⟩
      exact_mod_cast hsne

/-- C4 witness: a two-frame mono WAV at 8000 Hz with samples 100 and
-200 is normalized to peak 1 and reports duration 2/8000. -/
theorem c4_load_file_normalized_witness :
    (load_file ⟨2, 1, 2, 8000, [100, -200]⟩).2.1 = (2 : ℚ) / 8000 ∧
    peak (load_file ⟨2, 1, 2, 8000, [100, -200]⟩).2.2 = 1 := by
  refine ⟨?_, ?_⟩
  · exact (c4_load_file_normalized ⟨2, 1, 2, 8000, [100, -200]⟩ rfl
      (by decide) ⟨100, by decide, by decide⟩).2.1
  · exact (c4_load_file_normalized ⟨2, 1, 2, 8000, [100, -200]⟩ rfl
      (by decide) ⟨100, by decide, by decide⟩).2.2.2

/-- C5 counterexample: at the in-range input `f = 223`, `d = 6/5 ≥ 1`,
sample rate 2048, the NOTE generator returns `⌈2048*6/5⌉ = 2458` samples,
not `floor(2048*6/5) = 2457` as claimed. -/
theorem c5_counterexample :
    ((10 : ℚ) ≤ 223 ∧ (223 : ℚ) ≤ 10000 ∧ (1 : ℚ) ≤ 6/5) ∧
    (noteStream 223 2048 (6/5)).length ≠ Nat.floor ((2048 : ℚ) * (6/5)) := by
  constructor
  · norm_num
  · have hlen : (noteStream 223 2048 (6/5)).length = 2458 := by
      simp only [noteStream, List.length_map, List.length_range, npArangeLen]
      rw [Nat.ceil_eq_iff (by norm_num)]
      norm_num
    have hfl : Nat.floor ((2048 : ℚ) * (6/5)) = 2457 := by
      rw [Nat.floor_eq_iff (by norm_num)]
      norm_num
    rw [hlen, hfl]
    norm_num

/-- C5 (amended): for every frequency in [10, 10000] and duration of at
least one second, the NOTE generator returns exactly `⌈sr*d⌉` samples —
one more than `floor(sr*d)` whenever `sr*d` is not an integer, because
`np.arange(sr*d)` enumerates the naturals strictly below `sr*d` — and
every sample is a pure-sine value within [-1, 1]. -/
theorem c5_tone_length_and_bounds (f fs d : ℚ)
    (_hf1 : 10 ≤ f) (_hf2 : f ≤ 10000) (_hd : 1 ≤ d) :
    (noteStream f fs d).length = Nat.ceil (fs * d) ∧
    ∀ x ∈ noteStream f fs d, -1 ≤ x ∧ x ≤ 1 := by
  constructor
  · simp [noteStream, npArangeLen]
  · intro x hx
    simp only [noteStream, List.mem_map, List.mem_range] at hx
    obtain ⟨n, -, rfl⟩ := hx
    exact ⟨Real.neg_one_le_sin _, Real.sin_le_one _⟩

/-- C5 witness: the default tone at 16384 Hz for 5 seconds has
`⌈16384*5⌉` samples. -/
theorem c5_tone_length_and_bounds_witness :
    (noteStream 223 16384 5).length = Nat.ceil ((16384 : ℚ) * 5) :=
  (c5_tone_length_and_bounds 223 16384 5 (by norm_num) (by norm_num)
    (by norm_num)).1

theorem applyCycles_invariant (cycles : List (ℚ × ℚ)) (st : ClockState)
    (h : st.running = true) :
    (applyCycles cycles st).running = true ∧
    (applyCycles cycles st).startTime = st.startTime ∧
    (applyCycles cycles st).pauseTime
      = st.pauseTime + (cycles.map (fun c => c.2 - c.1)).sum := by
  induction cycles generalizing st with
  | nil =>
      simp [applyCycles, h]
  | cons c cs ih =>
      have hstep : resumeAt c.2 (pauseAt c.1 st)
          = { startTime := st.startTime,
              pauseTime := st.pauseTime + (c.2 - c.1),
              pauseStartTime := c.1, running := true } := by
        simp [pauseAt, resumeAt, h]
      simp only [applyCycles]
      rw [hstep]
      obtain ⟨h1, h2, h3⟩ := ih
        { startTime := st.startTime,
          pauseTime := st.pauseTime + (c.2 - c.1),
          pauseStartTime := c.1, running := true } rfl
      refine ⟨h1, h2, ?_⟩
      rw [h3]
      simp only [List.map_cons, List.sum_cons]
      ring

/-- C6: the reported elapsed time equals `now - start_time -
accumulated_pause_duration`, where each pause records its start time and
each resume adds `now - last_pause_start` to the accumulator; across any
number of pause/resume cycles exactly the paused intervals are excluded. -/
theorem c6_elapsed_excludes_pauses (t0 now : ℚ) (cycles : List (ℚ × ℚ)) :
    elapsedAt now (applyCycles cycles (initClock t0))
      = now - t0 - (cycles.map (fun c => c.2 - c.1)).sum := by
  obtain ⟨-, h2, h3⟩ := applyCycles_invariant cycles (initClock t0) rfl
  simp only [elapsedAt]
  rw [h2, h3]
  simp only [initClock]
  ring

/-- C7: the DESIGN generator ignores the frequency argument — identical
output for any two frequency inputs — and equals the fixed superposition
`0.5*sin(2π*325*t) + 0.1*sin(2π*330*t) + 0.5*sin(2π*340*t)` at
`t = n/sr`, with no renormalization applied to the buffer. -/
theorem c7_design_ignores_frequency (f1 f2 fs d : ℚ) :
    generate_sound_stream SoundType.DESIGN f1 fs d
      = generate_sound_stream SoundType.DESIGN f2 fs d ∧
    generate_sound_stream SoundType.DESIGN f1 fs d
      = some (designSpecSuperposition fs d) := by
  refine ⟨rfl, ?_⟩
  simp only [generate_sound_stream, Option.some.injEq, designStream,
    designSpecSuperposition]
  refine List.map_congr_left ?_
  intro n _
  have h325 : 2 * Real.pi * 325 / (fs : ℝ) * (n : ℝ)
      = 2 * Real.pi * 325 * ((n : ℝ) / (fs : ℝ)) := by ring
  have h330 : 2 * Real.pi * 330 / (fs : ℝ) * (n : ℝ)
      = 2 * Real.pi * 330 * ((n : ℝ) / (fs : ℝ)) := by ring
  have h340 : 2 * Real.pi * 340 / (fs : ℝ) * (n : ℝ)
      = 2 * Real.pi * 340 * ((n : ℝ) / (fs : ℝ)) := by ring
  rw [h325, h330, h340]
  ring

/-- C8 counterexample: at frequency -5 ≤ 0 (rate 2048, duration 1) the
NOTE generator does not fail with any error — it returns a buffer of
2048 samples. -/
theorem c8_counterexample :
    generate_sound_stream SoundType.NOTE (-5) 2048 1
      = some (noteStream (-5) 2048 1) ∧
    (noteStream (-5) 2048 1).length = 2048 := by
  refine ⟨rfl, ?_⟩
  simp only [noteStream, List.length_map, List.length_range, npArangeLen]
  rw [Nat.ceil_eq_iff (by norm_num)]
  norm_num

/-- C8 (amended): the tone generator performs no validation — for any
frequency and duration (including frequency ≤ 0 or duration ≤ 0) it
returns a buffer of `⌈sr*d⌉` samples (empty when duration ≤ 0) and no
InvalidParameter error exists; the Qt caller substitutes the defaults
223 Hz and 5.0 s before calling whenever the entered frequency lies
outside [10, 10000] or the duration is below 1.0, which covers every
frequency ≤ 0 and duration ≤ 0. -/
theorem c8_no_validation_and_caller_defaults (f : ℤ) (d : ℚ)
    (freq fs dur : ℚ) (hf : f ≤ 0) (hd : d ≤ 0) :
    substFreqPyqt f = DEFAULT_FREQUENCY ∧
    substDurPyqt d = DEFAULT_DURATION ∧
    generate_sound_stream SoundType.NOTE freq fs dur
      = some (noteStream freq fs dur) ∧
    (noteStream freq fs dur).length = Nat.ceil (fs * dur) := by
  refine ⟨?_, ?_, rfl, by simp [noteStream, npArangeLen]⟩
  · simp only [substFreqPyqt]
    rw [if_pos (Or.inl (by omega))]
  · simp only [substDurPyqt]
    rw [if_pos (by linarith)]

/-- C8 witness: the Qt caller maps the invalid inputs -5 Hz and -1 s to
the defaults. -/
theorem c8_no_validation_and_caller_defaults_witness :
    substFreqPyqt (-5) = DEFAULT_FREQUENCY ∧
    substDurPyqt (-1) = DEFAULT_DURATION := by
  refine ⟨?_, ?_⟩
  · exact (c8_no_validation_and_caller_defaults (-5) (-1) 223 2048 5
      (by norm_num) (by norm_num)).1
  · exact (c8_no_validation_and_caller_defaults (-5) (-1) 223 2048 5
      (by norm_num) (by norm_num)).2.1

/-- C9 (code bug, evaluated at the failing input): when `wave.open`
fails on an invalid file, the Tk `file_options` does not surface a
FileInvalid result — after the except handler it still references the
unbound local `wave_data`, so an `UnboundLocalError` escapes and no
outcome carrying a buffer is produced. -/
theorem c9_file_options_unbound_local :
    file_options none = TkFileOutcome.uncaughtUnboundLocalError ∧
    ∀ fs dur buf, file_options none ≠ TkFileOutcome.ok fs dur buf := by
  refine ⟨rfl, ?_⟩
  intro fs dur buf h
  simp only [file_options] at h
  cases h

/-- C10: within one session the published chunks partition the full sound
stream — after any sequence of callback invocations, the concatenation of
all chunks emitted so far followed by the remaining stream equals the
original full stream. -/
theorem c10_chunks_partition (v : ℚ) (stream : List ℚ) (fcs : List ℕ) :
    (runCallbacks v stream fcs).1.flatten ++ (runCallbacks v stream fcs).2
      = stream := by
  induction fcs generalizing stream with
  | nil => simp [runCallbacks]
  | cons fc fcs ih =>
      simp only [runCallbacks, List.flatten_cons, List.append_assoc]
      rw [ih]
      exact List.take_append_drop fc stream

end AudioVisualiser
